import Mathlib

/-!
Verification of the token-bucket rate limiter (`src/app/rate_limiter.py`,
`src/app/config.py`) against its natural-language specification.

Modelling choices (shallow embedding):
* Python floats (token counts, timestamps) are modelled as exact rationals `ℚ`.
* The Redis store is a function `String → Option Entry`; an entry records the
  serialized bytes and the TTL passed at the last write.
* Serialized bytes are modelled abstractly: either a valid serialization of a
  bucket record (`StoredBytes.valid`) or bytes that do not decode to a valid
  bucket record (`StoredBytes.corrupt`, covering `json.loads` failures and
  well-formed JSON lacking the record's fields).
* A Python exception escaping a call is `Except.error ()`; `check_rate_limit`
  returns the decision paired with the post-call store.
* `time.time()` is called twice per check in the source (once in
  `_get_bucket_state` for the synthesized fresh bucket, once in
  `_calculate_tokens`); the embedding passes both instants explicitly
  (`tRead`, `tNow`).
-/

/-- `Tier` from `src/app/config.py`: `limit: int = Field(gt=0)`,
`window: int = Field(gt=0)`. The pydantic `gt=0` validations are carried as
fields, since a `Tier` object only exists once validation passed. -/
structure Tier where
  limit : ℕ
  window : ℕ
  limit_pos : 0 < limit
  window_pos : 0 < window

/-- Association-list lookup, modelling Python `dict` key lookup on the
tier mapping. -/
def lookupTier : List (String × Tier) → String → Option Tier
  | [], _ => none
  | (k, v) :: rest, name => if k = name then some v else lookupTier rest name

/-- `RateLimitConfig` from `src/app/config.py`: the tier mapping and the
default tier name. The `model_validator` `validate_tiers` rejects a config
whose `default_tier` is not a key of `tiers`, so a constructed config carries
that fact. -/
structure RateLimitConfig where
  tiers : List (String × Tier)
  default_tier : String
  default_tier_defined : (lookupTier tiers default_tier).isSome = true

/-- `self.rate_limit_config.tiers[self.rate_limit_config.default_tier]`:
the default tier's parameters, well-defined by the load-time validator. -/
def tiersDefault (cfg : RateLimitConfig) : Tier :=
  (lookupTier cfg.tiers cfg.default_tier).get cfg.default_tier_defined

/-- `Settings.get_tier` from `src/app/config.py`:
`tiers.get(tier_name, tiers[default_tier])`. -/
def get_tier (cfg : RateLimitConfig) (tier_name : String) : Tier :=
  (lookupTier cfg.tiers tier_name).getD (tiersDefault cfg)

/-- `BucketState`: the per-identifier persisted record
`{tokens: float, last_refill: float}`. -/
structure BucketState where
  tokens : ℚ
  last_refill : ℚ
deriving DecidableEq

/-- Serialized store bytes, abstractly: either bytes that decode to a valid
bucket record, or bytes that do not (so `json.loads(data)` / the field
accesses raise). -/
inductive StoredBytes where
  | valid : BucketState → StoredBytes
  | corrupt : StoredBytes
deriving DecidableEq

/-- Decoding stored bytes: `json.loads` plus field extraction, as a total
function into `Option`. -/
def parseBucket : StoredBytes → Option BucketState
  | .valid s => some s
  | .corrupt => none

/-- A store entry: the bytes last written and the TTL (`ex=`) passed with
that write. -/
structure Entry where
  bytes : StoredBytes
  ttl : ℕ
deriving DecidableEq

/-- The Redis key-value store visible to the limiter: per-key optional
entry. -/
def Store : Type := String → Option Entry

/-- The store with no record for any key. -/
def emptyStore : Store := fun _ => none

/-- `RateLimiter._get_redis_key`: `f"rate_limit:{identifier}"`. -/
def get_redis_key (identifier : String) : String :=
  "rate_limit:" ++ identifier

/-- `RateLimiter._get_bucket_state`: read the key; if absent, synthesize a
full bucket `{tokens: float(capacity), last_refill: time.time()}`; otherwise
`return json.loads(data)` with no exception handling, so undecodable bytes
raise (`Except.error`). -/
def get_bucket_state (store : Store) (key : String) (capacity : ℕ) (tRead : ℚ) :
    Except Unit BucketState :=
  match store key with
  | none => .ok { tokens := (capacity : ℚ), last_refill := tRead }
  | some e =>
    match parseBucket e.bytes with
    | some s => .ok s
    | none => .error ()

/-- `RateLimiter._save_bucket_state`: `client.set(key, json.dumps(state), ex=ttl)`,
an unconditional overwrite of the one key. -/
def save_bucket_state (store : Store) (key : String) (state : BucketState) (ttl : ℕ) :
    Store :=
  fun k => if k = key then some { bytes := .valid state, ttl := ttl } else store k

/-- `RateLimiter._calculate_tokens`: `elapsed = now - last_refill`, clamped to
`0` when negative, `new_tokens = min(capacity, current_tokens + elapsed * refill_rate)`;
returns `(new_tokens, now)`. -/
def calculate_tokens (current_tokens last_refill refill_rate : ℚ) (capacity : ℕ)
    (tNow : ℚ) : ℚ × ℚ :=
  let elapsed_time := tNow - last_refill
  let elapsed_time := if elapsed_time < 0 then 0 else elapsed_time
  let added_tokens := elapsed_time * refill_rate
  (min (capacity : ℚ) (current_tokens + added_tokens), tNow)

/-- Python `int()`: truncation toward zero. -/
def pyInt (q : ℚ) : ℤ := if q < 0 then ⌈q⌉ else ⌊q⌋

/-- `RateLimitDecision`: the dict returned by `check_rate_limit`. -/
structure CheckResult where
  allowed : Bool
  tokens_remaining : ℤ
  reset_at : ℚ
  limit : ℕ
  retry_after : Option ℕ
deriving DecidableEq

/-- `RateLimiter.check_rate_limit` from `src/app/rate_limiter.py`: resolve the
tier (defaulting `None` to the configured default name), compute
`refill_rate = limit / window`, load bucket state, refill, and either consume
one token and persist with TTL `window*2`, or deny without writing. Returns
the decision together with the post-call store. -/
def check_rate_limit (cfg : RateLimitConfig) (store : Store) (identifier : String)
    (tier : Option String) (tRead tNow : ℚ) : Except Unit (CheckResult × Store) :=
  let tierName := tier.getD cfg.default_tier
  let tier_config := get_tier cfg tierName
  let limit := tier_config.limit
  let window := tier_config.window
  let refill_rate := (limit : ℚ) / (window : ℚ)
  let key := get_redis_key identifier
  match get_bucket_state store key limit tRead with
  | .error e => .error e
  | .ok state =>
    let p := calculate_tokens state.tokens state.last_refill refill_rate limit tNow
    let new_tokens := p.1
    let current_time := p.2
    if 1 ≤ new_tokens then
      let consumed := new_tokens - 1
      let store' := save_bucket_state store key
        { tokens := consumed, last_refill := current_time } (window * 2)
      .ok ({ allowed := true, tokens_remaining := pyInt consumed,
             reset_at := current_time + (window : ℚ), limit := limit,
             retry_after := none }, store')
    else
      .ok ({ allowed := false, tokens_remaining := 0,
             reset_at := current_time + (window : ℚ), limit := limit,
             retry_after := some window }, store)

/-- Tier resolution as performed at the top of `check_rate_limit`:
an absent tier argument falls back to the configured default name. -/
def resolve_tier (cfg : RateLimitConfig) (tier : Option String) : Tier :=
  get_tier cfg (tier.getD cfg.default_tier)

/-- Run `n` consecutive `check_rate_limit` calls for one identifier with zero
elapsed time between them (both clock reads equal to `now`), threading the
store; an escaping exception aborts the run. Returns the final store. -/
def afterChecks (cfg : RateLimitConfig) (identifier : String) (tier : Option String)
    (now : ℚ) : ℕ → Store → Except Unit Store
  | 0, st => .ok st
  | n + 1, st =>
    match check_rate_limit cfg st identifier tier now now with
    | .ok (_, st') => afterChecks cfg identifier tier now n st'
    | .error e => .error e

/-- The decision of the `(k+1)`-th consecutive check call (0-indexed `k`) for
one identifier under zero elapsed time. -/
def nthCheck (cfg : RateLimitConfig) (identifier : String) (tier : Option String)
    (now : ℚ) (k : ℕ) (st : Store) : Except Unit CheckResult :=
  match afterChecks cfg identifier tier now k st with
  | .ok st' => (check_rate_limit cfg st' identifier tier now now).map Prod.fst
  | .error e => .error e

/-- Run a list of check calls (tier argument and the two clock reads per
call) for one identifier, threading the store. An escaping exception leaves
the store untouched (the exception is raised before any write) and the
caller moves on to its next call. -/
def runChecksFor (cfg : RateLimitConfig) (identifier : String) :
    List (Option String × ℚ × ℚ) → Store → Store
  | [], st => st
  | c :: rest, st =>
    match check_rate_limit cfg st identifier c.1 c.2.1 c.2.2 with
    | .ok (_, st') => runChecksFor cfg identifier rest st'
    | .error _ => runChecksFor cfg identifier rest st

/-- Sample configuration for concrete witnesses: one tier
`{limit = 3, window = 60}` named `free`, which is also the default. -/
def sampleTier : Tier :=
  { limit := 3, window := 60, limit_pos := by decide, window_pos := by decide }

def sampleCfg : RateLimitConfig :=
  { tiers := [("free", sampleTier)], default_tier := "free", default_tier_defined := rfl }

/-- A store whose record for identifier `u` holds bytes that do not decode
to a bucket record. -/
def corruptStore : Store :=
  fun k => if k = "rate_limit:u" then some { bytes := .corrupt, ttl := 120 } else none

/-- Helper: the refilled token count never exceeds the capacity. -/
theorem calculate_tokens_le_capacity (a b c : ℚ) (cap : ℕ) (d : ℚ) :
    (calculate_tokens a b c cap d).1 ≤ (cap : ℚ) :=
  min_le_left _ _

/-- Helper: a lookup hit is a member of the registry's tier values. -/
theorem lookupTier_mem_values : ∀ (l : List (String × Tier)) (name : String) (t : Tier),
    lookupTier l name = some t → t ∈ l.map Prod.snd
  | [], _, _, h => by simp [lookupTier] at h
  | (k, v) :: rest, name, t, h => by
    by_cases hk : k = name
    · simp only [lookupTier, if_pos hk, Option.some.injEq] at h
      simp [h]
    · simp only [lookupTier, if_neg hk] at h
      exact List.mem_cons_of_mem _ (lookupTier_mem_values rest name t h)

/-- Helper: the default tier's parameters are a lookup hit. -/
theorem lookupTier_default (cfg : RateLimitConfig) :
    lookupTier cfg.tiers cfg.default_tier = some (tiersDefault cfg) :=
  (Option.some_get cfg.default_tier_defined).symm

/-- C2: `_calculate_tokens` computes
`new_tokens = min(capacity, current_tokens + elapsed * refill_rate)` with
`elapsed = now - last_refill` clamped to `0` when negative, returning the
result totally (no error); a negative elapsed time yields no refill credit. -/
theorem calculate_tokens_refill_formula (current_tokens last_refill refill_rate : ℚ)
    (capacity : ℕ) (tNow : ℚ) :
    calculate_tokens current_tokens last_refill refill_rate capacity tNow
      = (min (capacity : ℚ)
          (current_tokens + max 0 (tNow - last_refill) * refill_rate), tNow) ∧
    (tNow - last_refill < 0 →
      calculate_tokens current_tokens last_refill refill_rate capacity tNow
        = (min (capacity : ℚ) current_tokens, tNow)) := by
  constructor
  · simp only [calculate_tokens]
    rcases lt_or_le (tNow - last_refill) 0 with h | h
    · rw [if_pos h, max_eq_left h.le]
    · rw [if_neg (not_lt.mpr h), max_eq_right h]
  · intro h
    simp only [calculate_tokens]
    rw [if_pos h, zero_mul, add_zero]

theorem calculate_tokens_refill_formula_witness :
    (4 : ℚ) - 10 < 0 ∧ calculate_tokens 5 10 2 7 4 = (min ((7:ℕ) : ℚ) 5, 4) :=
  ⟨by norm_num, (calculate_tokens_refill_formula 5 10 2 7 4).2 (by norm_num)⟩

/-- C5: when the store holds no record for the identifier's key,
`_get_bucket_state` synthesizes a full bucket with `tokens = capacity` and
`last_refill` equal to the read-time clock. -/
theorem absent_record_synthesizes_full_bucket (store : Store) (identifier : String)
    (capacity : ℕ) (tRead : ℚ)
    (h : store (get_redis_key identifier) = none) :
    get_bucket_state store (get_redis_key identifier) capacity tRead
      = .ok { tokens := (capacity : ℚ), last_refill := tRead } := by
  unfold get_bucket_state
  rw [h]

theorem absent_record_synthesizes_full_bucket_witness :
    emptyStore (get_redis_key "u") = none ∧
    get_bucket_state emptyStore (get_redis_key "u") 3 0
      = .ok { tokens := ((3:ℕ) : ℚ), last_refill := 0 } :=
  ⟨rfl, absent_record_synthesizes_full_bucket emptyStore "u" 3 0 rfl⟩

/-- C6 counterexample: with bytes that fail to decode stored under the
identifier's key, the check does NOT complete with a synthesized full
bucket — the parse error escapes (`json.loads` is not guarded in
`_get_bucket_state`), refuting the claim at this concrete input. -/
theorem corrupted_state_error_counterexample :
    check_rate_limit sampleCfg corruptStore "u" none 0 0 = .error () ∧
    get_bucket_state corruptStore (get_redis_key "u") 3 0 = .error () :=
  ⟨rfl, rfl⟩

/-- C6 amended: whenever the stored bytes for the identifier's key fail to
decode to a bucket record, the parse error propagates out of
`check_rate_limit` (the coordinator neither synthesizes a full bucket nor
completes the check). -/
theorem corrupted_state_error_propagates (cfg : RateLimitConfig) (store : Store)
    (identifier : String) (tier : Option String) (tRead tNow : ℚ) (e : Entry)
    (hs : store (get_redis_key identifier) = some e)
    (hp : parseBucket e.bytes = none) :
    check_rate_limit cfg store identifier tier tRead tNow = .error () := by
  simp only [check_rate_limit, get_bucket_state, hs, hp]

theorem corrupted_state_error_propagates_witness :
    corruptStore (get_redis_key "u") = some { bytes := .corrupt, ttl := 120 } ∧
    check_rate_limit sampleCfg corruptStore "u" (some "free") 5 7 = .error () :=
  ⟨rfl, corrupted_state_error_propagates sampleCfg corruptStore "u" (some "free") 5 7
    { bytes := .corrupt, ttl := 120 } rfl rfl⟩

/-- C7: an unknown tier name resolves to the default tier's parameters, an
absent (`None`) tier argument resolves to the same default parameters, and
resolution is total: every name resolves to some tier of the registry. -/
theorem tier_resolution_defaults (cfg : RateLimitConfig) (name : String)
    (h : lookupTier cfg.tiers name = none) :
    get_tier cfg name = tiersDefault cfg ∧
    resolve_tier cfg none = tiersDefault cfg ∧
    get_tier cfg name = resolve_tier cfg none ∧
    (∀ n : String, get_tier cfg n ∈ cfg.tiers.map Prod.snd) := by
  have hdef : resolve_tier cfg none = tiersDefault cfg := by
    unfold resolve_tier get_tier
    simp [lookupTier_default cfg]
  have h1 : get_tier cfg name = tiersDefault cfg := by
    unfold get_tier
    rw [h]
    rfl
  refine ⟨h1, hdef, h1.trans hdef.symm, fun n => ?_⟩
  unfold get_tier
  cases hn : lookupTier cfg.tiers n with
  | none =>
    simpa using lookupTier_mem_values cfg.tiers cfg.default_tier (tiersDefault cfg)
      (lookupTier_default cfg)
  | some t =>
    simpa using lookupTier_mem_values cfg.tiers n t hn

theorem tier_resolution_defaults_witness :
    lookupTier sampleCfg.tiers "unknown" = none ∧
    get_tier sampleCfg "unknown" = tiersDefault sampleCfg ∧
    resolve_tier sampleCfg none = tiersDefault sampleCfg ∧
    get_tier sampleCfg "unknown" = resolve_tier sampleCfg none ∧
    (∀ n : String, get_tier sampleCfg n ∈ sampleCfg.tiers.map Prod.snd) :=
  ⟨rfl, tier_resolution_defaults sampleCfg "unknown" rfl⟩

/-- The refilled token count `new_tokens` computed inside `check_rate_limit`
for a loaded state, under the resolved tier. -/
def newTokens (cfg : RateLimitConfig) (tier : Option String) (state : BucketState)
    (tNow : ℚ) : ℚ :=
  (calculate_tokens state.tokens state.last_refill
    (((resolve_tier cfg tier).limit : ℚ) / ((resolve_tier cfg tier).window : ℚ))
    (resolve_tier cfg tier).limit tNow).1

/-- Helper: the second component returned by `_calculate_tokens` is the
current clock reading. -/
theorem calculate_tokens_snd (a b c : ℚ) (cap : ℕ) (d : ℚ) :
    (calculate_tokens a b c cap d).2 = d := rfl

/-- A store whose record for identifier `u` holds an empty bucket. -/
def zeroStore : Store :=
  fun k =>
    if k = "rate_limit:u" then
      some { bytes := .valid { tokens := 0, last_refill := 0 }, ttl := 120 }
    else none

/-- Helper: the allow branch of `check_rate_limit`, as an equation. -/
theorem check_allowed_spec (cfg : RateLimitConfig) (store : Store)
    (identifier : String) (tier : Option String) (tRead tNow : ℚ) (state : BucketState)
    (hload : get_bucket_state store (get_redis_key identifier)
        (resolve_tier cfg tier).limit tRead = .ok state)
    (h1 : 1 ≤ newTokens cfg tier state tNow) :
    check_rate_limit cfg store identifier tier tRead tNow =
      .ok ({ allowed := true,
             tokens_remaining := ⌊newTokens cfg tier state tNow - 1⌋,
             reset_at := tNow + ((resolve_tier cfg tier).window : ℚ),
             limit := (resolve_tier cfg tier).limit,
             retry_after := none },
           save_bucket_state store (get_redis_key identifier)
             { tokens := newTokens cfg tier state tNow - 1, last_refill := tNow }
             ((resolve_tier cfg tier).window * 2)) := by
  have hfloor : pyInt (newTokens cfg tier state tNow - 1)
      = ⌊newTokens cfg tier state tNow - 1⌋ := by
    unfold pyInt
    rw [if_neg (not_lt.mpr (by linarith))]
  simp only [newTokens, resolve_tier] at h1 hfloor hload ⊢
  simp only [check_rate_limit, hload, if_pos h1, hfloor, calculate_tokens_snd]

/-- Helper: the deny branch of `check_rate_limit`, as an equation. -/
theorem check_denied_spec (cfg : RateLimitConfig) (store : Store)
    (identifier : String) (tier : Option String) (tRead tNow : ℚ) (state : BucketState)
    (hload : get_bucket_state store (get_redis_key identifier)
        (resolve_tier cfg tier).limit tRead = .ok state)
    (h1 : newTokens cfg tier state tNow < 1) :
    check_rate_limit cfg store identifier tier tRead tNow =
      .ok ({ allowed := false, tokens_remaining := 0,
             reset_at := tNow + ((resolve_tier cfg tier).window : ℚ),
             limit := (resolve_tier cfg tier).limit,
             retry_after := some (resolve_tier cfg tier).window }, store) := by
  simp only [newTokens, resolve_tier] at h1
  simp only [resolve_tier] at hload ⊢
  simp only [check_rate_limit, hload, if_neg (not_le.mpr h1), calculate_tokens_snd]

/-- C3: with refilled count `new_tokens >= 1`, the check consumes exactly one
token, persists `{tokens: new_tokens - 1, last_refill: now}` under the
identifier's key with TTL `2 * window`, and returns `allowed = true` with
`tokens_remaining = floor(new_tokens - 1)` and `limit` the tier's capacity. -/
theorem allowed_check_consumes_and_persists (cfg : RateLimitConfig) (store : Store)
    (identifier : String) (tier : Option String) (tRead tNow : ℚ) (state : BucketState)
    (hload : get_bucket_state store (get_redis_key identifier)
        (resolve_tier cfg tier).limit tRead = .ok state)
    (h1 : 1 ≤ newTokens cfg tier state tNow) :
    check_rate_limit cfg store identifier tier tRead tNow =
      .ok ({ allowed := true,
             tokens_remaining := ⌊newTokens cfg tier state tNow - 1⌋,
             reset_at := tNow + ((resolve_tier cfg tier).window : ℚ),
             limit := (resolve_tier cfg tier).limit,
             retry_after := none },
           save_bucket_state store (get_redis_key identifier)
             { tokens := newTokens cfg tier state tNow - 1, last_refill := tNow }
             ((resolve_tier cfg tier).window * 2)) ∧
    (save_bucket_state store (get_redis_key identifier)
        { tokens := newTokens cfg tier state tNow - 1, last_refill := tNow }
        ((resolve_tier cfg tier).window * 2)) (get_redis_key identifier)
      = some { bytes := .valid { tokens := newTokens cfg tier state tNow - 1,
                                 last_refill := tNow },
               ttl := (resolve_tier cfg tier).window * 2 } := by
  exact ⟨check_allowed_spec cfg store identifier tier tRead tNow state hload h1,
    by simp [save_bucket_state]⟩

theorem allowed_check_consumes_and_persists_witness :
    get_bucket_state emptyStore (get_redis_key "u")
        (resolve_tier sampleCfg none).limit 0
      = .ok { tokens := 3, last_refill := 0 } ∧
    1 ≤ newTokens sampleCfg none { tokens := 3, last_refill := 0 } 0 ∧
    check_rate_limit sampleCfg emptyStore "u" none 0 0 =
      .ok ({ allowed := true,
             tokens_remaining :=
               ⌊newTokens sampleCfg none { tokens := 3, last_refill := 0 } 0 - 1⌋,
             reset_at := 0 + ((resolve_tier sampleCfg none).window : ℚ),
             limit := (resolve_tier sampleCfg none).limit,
             retry_after := none },
           save_bucket_state emptyStore (get_redis_key "u")
             { tokens := newTokens sampleCfg none { tokens := 3, last_refill := 0 } 0 - 1,
               last_refill := 0 }
             ((resolve_tier sampleCfg none).window * 2)) := by
  have h1 : 1 ≤ newTokens sampleCfg none { tokens := 3, last_refill := 0 } 0 := by
    norm_num [newTokens, resolve_tier, get_tier, tiersDefault, lookupTier, sampleCfg,
      sampleTier, calculate_tokens]
  exact ⟨rfl, h1, (allowed_check_consumes_and_persists sampleCfg emptyStore "u" none 0 0
    { tokens := 3, last_refill := 0 } rfl h1).1⟩

/-- C4: with refilled count `new_tokens < 1`, the check returns
`allowed = false`, `tokens_remaining = 0`, `retry_after = window`, and the
post-call store is the pre-call store itself — no write occurs, so the
persisted record (including `last_refill`) is unchanged by a denial. -/
theorem denied_check_leaves_store_unchanged (cfg : RateLimitConfig) (store : Store)
    (identifier : String) (tier : Option String) (tRead tNow : ℚ) (state : BucketState)
    (hload : get_bucket_state store (get_redis_key identifier)
        (resolve_tier cfg tier).limit tRead = .ok state)
    (h1 : newTokens cfg tier state tNow < 1) :
    check_rate_limit cfg store identifier tier tRead tNow =
      .ok ({ allowed := false, tokens_remaining := 0,
             reset_at := tNow + ((resolve_tier cfg tier).window : ℚ),
             limit := (resolve_tier cfg tier).limit,
             retry_after := some (resolve_tier cfg tier).window }, store) :=
  check_denied_spec cfg store identifier tier tRead tNow state hload h1

theorem denied_check_leaves_store_unchanged_witness :
    get_bucket_state zeroStore (get_redis_key "u")
        (resolve_tier sampleCfg none).limit 0
      = .ok { tokens := 0, last_refill := 0 } ∧
    newTokens sampleCfg none { tokens := 0, last_refill := 0 } 0 < 1 ∧
    check_rate_limit sampleCfg zeroStore "u" none 0 0 =
      .ok ({ allowed := false, tokens_remaining := 0,
             reset_at := 0 + ((resolve_tier sampleCfg none).window : ℚ),
             limit := (resolve_tier sampleCfg none).limit,
             retry_after := some (resolve_tier sampleCfg none).window }, zeroStore) := by
  have h1 : newTokens sampleCfg none { tokens := 0, last_refill := 0 } 0 < 1 := by
    norm_num [newTokens, resolve_tier, get_tier, tiersDefault, lookupTier, sampleCfg,
      sampleTier, calculate_tokens]
  exact ⟨rfl, h1, denied_check_leaves_store_unchanged sampleCfg zeroStore "u" none 0 0
    { tokens := 0, last_refill := 0 } rfl h1⟩

/-- Helper: the refilled count never exceeds the resolved tier's capacity. -/
theorem newTokens_le_capacity (cfg : RateLimitConfig) (tier : Option String)
    (state : BucketState) (tNow : ℚ) :
    newTokens cfg tier state tNow ≤ ((resolve_tier cfg tier).limit : ℚ) :=
  calculate_tokens_le_capacity _ _ _ _ _

/-- Helper: a full bucket stays full under refill when the rate is
nonnegative. -/
theorem calculate_tokens_full (lr rate : ℚ) (cap : ℕ) (d : ℚ) (hrate : 0 ≤ rate) :
    (calculate_tokens (cap : ℚ) lr rate cap d).1 = (cap : ℚ) := by
  simp only [calculate_tokens]
  have h0 : 0 ≤ (if d - lr < 0 then (0:ℚ) else d - lr) := by
    split
    · exact le_refl 0
    · next hcond => exact not_lt.mp hcond
  exact min_eq_left (le_add_of_nonneg_right (mul_nonneg h0 hrate))

/-- Helper: inversion of an allowed check — it went through the
`new_tokens >= 1` branch for some successfully loaded state, and the result
and post-call store are the allow-branch values. -/
theorem check_ok_allowed_inv (cfg : RateLimitConfig) (store : Store)
    (identifier : String) (tier : Option String) (tRead tNow : ℚ)
    (r : CheckResult) (st' : Store)
    (h : check_rate_limit cfg store identifier tier tRead tNow = .ok (r, st'))
    (ha : r.allowed = true) :
    ∃ state : BucketState,
      get_bucket_state store (get_redis_key identifier)
          (resolve_tier cfg tier).limit tRead = .ok state ∧
      1 ≤ newTokens cfg tier state tNow ∧
      r = { allowed := true,
            tokens_remaining := pyInt (newTokens cfg tier state tNow - 1),
            reset_at := tNow + ((resolve_tier cfg tier).window : ℚ),
            limit := (resolve_tier cfg tier).limit,
            retry_after := none } ∧
      st' = save_bucket_state store (get_redis_key identifier)
        { tokens := newTokens cfg tier state tNow - 1, last_refill := tNow }
        ((resolve_tier cfg tier).window * 2) := by
  simp only [check_rate_limit] at h
  cases hload : get_bucket_state store (get_redis_key identifier)
      (get_tier cfg (tier.getD cfg.default_tier)).limit tRead with
  | error e =>
    simp only [hload] at h
    exact Except.noConfusion h
  | ok state =>
    simp only [hload] at h
    refine ⟨state, hload, ?_⟩
    by_cases h1 : 1 ≤ (calculate_tokens state.tokens state.last_refill
        (((get_tier cfg (tier.getD cfg.default_tier)).limit : ℚ) /
          ((get_tier cfg (tier.getD cfg.default_tier)).window : ℚ))
        (get_tier cfg (tier.getD cfg.default_tier)).limit tNow).1
    · rw [if_pos h1] at h
      simp only [Except.ok.injEq, Prod.mk.injEq] at h
      obtain ⟨hr, hst⟩ := h
      simp only [newTokens, resolve_tier, calculate_tokens_snd]
      exact ⟨h1, hr.symm, hst.symm⟩
    · rw [if_neg h1] at h
      simp only [Except.ok.injEq, Prod.mk.injEq] at h
      obtain ⟨hr, -⟩ := h
      rw [← hr] at ha
      simp at ha

/-- C8: whenever a check writes bucket state (the allow branch is the only
writing branch), the persisted `tokens` value lies within `[0, capacity]`,
no matter what tokens value was loaded from the store. -/
theorem write_tokens_within_capacity (cfg : RateLimitConfig) (store : Store)
    (identifier : String) (tier : Option String) (tRead tNow : ℚ)
    (r : CheckResult) (st' : Store)
    (h : check_rate_limit cfg store identifier tier tRead tNow = .ok (r, st'))
    (ha : r.allowed = true) :
    ∃ (s : BucketState) (ttl : ℕ),
      st' (get_redis_key identifier) = some { bytes := .valid s, ttl := ttl } ∧
      0 ≤ s.tokens ∧ s.tokens ≤ ((resolve_tier cfg tier).limit : ℚ) := by
  obtain ⟨state, -, h1, -, hst⟩ :=
    check_ok_allowed_inv cfg store identifier tier tRead tNow r st' h ha
  subst hst
  have hcap := newTokens_le_capacity cfg tier state tNow
  refine ⟨{ tokens := newTokens cfg tier state tNow - 1, last_refill := tNow },
    (resolve_tier cfg tier).window * 2, by simp [save_bucket_state], ?_, ?_⟩
  · show (0:ℚ) ≤ newTokens cfg tier state tNow - 1
    linarith
  · show newTokens cfg tier state tNow - 1 ≤ ((resolve_tier cfg tier).limit : ℚ)
    linarith

/-- A store whose record for identifier `u` holds an out-of-range token count
(far above the sample tier's capacity of 3). -/
def bigStore : Store :=
  fun k =>
    if k = "rate_limit:u" then
      some { bytes := .valid { tokens := 1000, last_refill := 0 }, ttl := 120 }
    else none

theorem write_tokens_within_capacity_witness :
    ∃ (s : BucketState) (ttl : ℕ),
      (save_bucket_state bigStore (get_redis_key "u")
          { tokens := newTokens sampleCfg none { tokens := 1000, last_refill := 0 } 0 - 1,
            last_refill := 0 }
          ((resolve_tier sampleCfg none).window * 2)) (get_redis_key "u")
        = some { bytes := .valid s, ttl := ttl } ∧
      0 ≤ s.tokens ∧ s.tokens ≤ ((resolve_tier sampleCfg none).limit : ℚ) := by
  have h1 : 1 ≤ newTokens sampleCfg none { tokens := 1000, last_refill := 0 } 0 := by
    norm_num [newTokens, resolve_tier, get_tier, tiersDefault, lookupTier, sampleCfg,
      sampleTier, calculate_tokens, le_min_iff]
  exact write_tokens_within_capacity sampleCfg bigStore "u" none 0 0 _ _
    (check_allowed_spec sampleCfg bigStore "u" none 0 0
      { tokens := 1000, last_refill := 0 } rfl h1) rfl

/-- C10: every allowed check reports an integral `tokens_remaining` with
`0 <= tokens_remaining <= limit - 1`; it never equals the tier's limit, and
on a fresh bucket (no stored record) it equals exactly `limit - 1`. -/
theorem allowed_tokens_remaining_bounds (cfg : RateLimitConfig) (store : Store)
    (identifier : String) (tier : Option String) (tRead tNow : ℚ)
    (r : CheckResult) (st' : Store)
    (h : check_rate_limit cfg store identifier tier tRead tNow = .ok (r, st'))
    (ha : r.allowed = true) :
    0 ≤ r.tokens_remaining ∧
    r.tokens_remaining ≤ (r.limit : ℤ) - 1 ∧
    r.tokens_remaining ≠ (r.limit : ℤ) ∧
    (store (get_redis_key identifier) = none →
      r.tokens_remaining = (r.limit : ℤ) - 1) := by
  obtain ⟨state, hload, h1, hr, -⟩ :=
    check_ok_allowed_inv cfg store identifier tier tRead tNow r st' h ha
  subst hr
  have hcap := newTokens_le_capacity cfg tier state tNow
  have hfloor : pyInt (newTokens cfg tier state tNow - 1)
      = ⌊newTokens cfg tier state tNow - 1⌋ := by
    unfold pyInt
    rw [if_neg (not_lt.mpr (by linarith))]
  have hub : ⌊newTokens cfg tier state tNow - 1⌋
      ≤ ((resolve_tier cfg tier).limit : ℤ) - 1 := by
    calc ⌊newTokens cfg tier state tNow - 1⌋
        ≤ ⌊((((resolve_tier cfg tier).limit : ℤ) - 1 : ℤ) : ℚ)⌋ :=
          Int.floor_mono (by push_cast; linarith)
      _ = ((resolve_tier cfg tier).limit : ℤ) - 1 := Int.floor_intCast _
  dsimp only
  rw [hfloor]
  refine ⟨Int.le_floor.mpr (by push_cast; linarith), hub, fun heq => ?_, fun hnone => ?_⟩
  · rw [heq] at hub
    linarith
  · have hstate : ({ tokens := ((resolve_tier cfg tier).limit : ℚ),
                     last_refill := tRead } : BucketState) = state := by
      simp only [resolve_tier] at hload
      simp only [get_bucket_state, hnone, Except.ok.injEq, resolve_tier] at hload
      exact hload
    have hnt : newTokens cfg tier state tNow = ((resolve_tier cfg tier).limit : ℚ) := by
      rw [← hstate]
      unfold newTokens
      exact calculate_tokens_full tRead _ _ tNow
        (div_nonneg (Nat.cast_nonneg _) (Nat.cast_nonneg _))
    rw [hnt]
    calc ⌊((resolve_tier cfg tier).limit : ℚ) - 1⌋
        = ⌊((((resolve_tier cfg tier).limit : ℤ) - 1 : ℤ) : ℚ)⌋ := by push_cast; ring_nf
      _ = ((resolve_tier cfg tier).limit : ℤ) - 1 := Int.floor_intCast _

theorem allowed_tokens_remaining_bounds_witness :
    0 ≤ (⌊newTokens sampleCfg none { tokens := 3, last_refill := 0 } 0 - 1⌋ : ℤ) ∧
    (⌊newTokens sampleCfg none { tokens := 3, last_refill := 0 } 0 - 1⌋ : ℤ)
      ≤ (((resolve_tier sampleCfg none).limit : ℕ) : ℤ) - 1 ∧
    (⌊newTokens sampleCfg none { tokens := 3, last_refill := 0 } 0 - 1⌋ : ℤ)
      ≠ (((resolve_tier sampleCfg none).limit : ℕ) : ℤ) ∧
    (emptyStore (get_redis_key "u") = none →
      (⌊newTokens sampleCfg none { tokens := 3, last_refill := 0 } 0 - 1⌋ : ℤ)
        = (((resolve_tier sampleCfg none).limit : ℕ) : ℤ) - 1) := by
  have h1 : 1 ≤ newTokens sampleCfg none { tokens := 3, last_refill := 0 } 0 := by
    norm_num [newTokens, resolve_tier, get_tier, tiersDefault, lookupTier, sampleCfg,
      sampleTier, calculate_tokens]
  exact allowed_tokens_remaining_bounds sampleCfg emptyStore "u" none 0 0 _ _
    (check_allowed_spec sampleCfg emptyStore "u" none 0 0
      { tokens := 3, last_refill := 0 } rfl h1) rfl

/-- Helper: `"rate_limit:" + identifier` is injective in the identifier. -/
theorem get_redis_key_injective (id1 id2 : String) (h : id1 ≠ id2) :
    get_redis_key id1 ≠ get_redis_key id2 := by
  intro hk
  apply h
  apply String.ext
  have hd := congrArg String.data hk
  simp only [get_redis_key, String.data_append] at hd
  exact List.append_cancel_left hd

/-- Helper: one check call for an identifier never touches any other key of
the store. -/
theorem check_preserves_other_key (cfg : RateLimitConfig) (store : Store)
    (identifier : String) (tier : Option String) (tRead tNow : ℚ) (k2 : String)
    (hne : get_redis_key identifier ≠ k2) (r : CheckResult) (st' : Store)
    (h : check_rate_limit cfg store identifier tier tRead tNow = .ok (r, st')) :
    st' k2 = store k2 := by
  simp only [check_rate_limit] at h
  cases hload : get_bucket_state store (get_redis_key identifier)
      (get_tier cfg (tier.getD cfg.default_tier)).limit tRead with
  | error e =>
    simp only [hload] at h
    exact Except.noConfusion h
  | ok state =>
    simp only [hload] at h
    by_cases h1 : 1 ≤ (calculate_tokens state.tokens state.last_refill
        (((get_tier cfg (tier.getD cfg.default_tier)).limit : ℚ) /
          ((get_tier cfg (tier.getD cfg.default_tier)).window : ℚ))
        (get_tier cfg (tier.getD cfg.default_tier)).limit tNow).1
    · rw [if_pos h1] at h
      simp only [Except.ok.injEq, Prod.mk.injEq] at h
      obtain ⟨-, hst⟩ := h
      rw [← hst]
      simp only [save_bucket_state]
      rw [if_neg (fun hh => hne hh.symm)]
    · rw [if_neg h1] at h
      simp only [Except.ok.injEq, Prod.mk.injEq] at h
      obtain ⟨-, hst⟩ := h
      rw [← hst]

/-- Helper: any sequence of check calls for one identifier never touches any
other key of the store. -/
theorem runChecksFor_preserves_other_key (cfg : RateLimitConfig) (identifier : String)
    (k2 : String) (hne : get_redis_key identifier ≠ k2) :
    ∀ (calls : List (Option String × ℚ × ℚ)) (store : Store),
      runChecksFor cfg identifier calls store k2 = store k2
  | [], _ => rfl
  | c :: rest, store => by
    simp only [runChecksFor]
    cases hc : check_rate_limit cfg store identifier c.1 c.2.1 c.2.2 with
    | error e =>
      simp only [hc]
      exact runChecksFor_preserves_other_key cfg identifier k2 hne rest store
    | ok p =>
      obtain ⟨r0, st0⟩ := p
      simp only [hc]
      calc runChecksFor cfg identifier rest st0 k2
          = st0 k2 := runChecksFor_preserves_other_key cfg identifier k2 hne rest st0
        _ = store k2 :=
          check_preserves_other_key cfg store identifier c.1 c.2.1 c.2.2 k2 hne r0 st0 hc

/-- Helper: the decision of a check call depends on the store only through
the identifier's own key. -/
theorem check_result_depends_on_own_key (cfg : RateLimitConfig) (st1 st2 : Store)
    (identifier : String) (tier : Option String) (tRead tNow : ℚ)
    (h : st1 (get_redis_key identifier) = st2 (get_redis_key identifier)) :
    (check_rate_limit cfg st1 identifier tier tRead tNow).map Prod.fst =
      (check_rate_limit cfg st2 identifier tier tRead tNow).map Prod.fst := by
  simp only [check_rate_limit, get_bucket_state, h]
  cases hk : st2 (get_redis_key identifier) with
  | none =>
    simp only [hk]
    split <;> rfl
  | some e =>
    simp only [hk]
    cases hp : parseBucket e.bytes with
    | none => rfl
    | some s =>
      simp only [hp]
      split <;> rfl

/-- C9: distinct identifiers have fully independent bucket state — the store
key `"rate_limit:" + identifier` is injective, any sequence of check calls
for one identifier leaves the other identifier's key untouched, and the
decision (including `tokens_remaining`) returned for the other identifier is
unchanged by that sequence. -/
theorem distinct_identifiers_independent (cfg : RateLimitConfig) (id1 id2 : String)
    (hne : id1 ≠ id2) (calls : List (Option String × ℚ × ℚ)) (store : Store)
    (tier : Option String) (tRead tNow : ℚ) :
    get_redis_key id1 ≠ get_redis_key id2 ∧
    runChecksFor cfg id1 calls store (get_redis_key id2) = store (get_redis_key id2) ∧
    (check_rate_limit cfg (runChecksFor cfg id1 calls store) id2 tier tRead tNow).map
        Prod.fst
      = (check_rate_limit cfg store id2 tier tRead tNow).map Prod.fst := by
  have hkey := get_redis_key_injective id1 id2 hne
  have hframe := runChecksFor_preserves_other_key cfg id1 (get_redis_key id2) hkey
    calls store
  exact ⟨hkey, hframe,
    check_result_depends_on_own_key cfg _ store id2 tier tRead tNow hframe⟩

theorem distinct_identifiers_independent_witness :
    get_redis_key "a" ≠ get_redis_key "b" ∧
    runChecksFor sampleCfg "a" [(none, 0, 0)] emptyStore (get_redis_key "b")
      = emptyStore (get_redis_key "b") ∧
    (check_rate_limit sampleCfg (runChecksFor sampleCfg "a" [(none, 0, 0)] emptyStore)
        "b" none 0 0).map Prod.fst
      = (check_rate_limit sampleCfg emptyStore "b" none 0 0).map Prod.fst :=
  distinct_identifiers_independent sampleCfg "a" "b" (by decide) [(none, 0, 0)]
    emptyStore none 0 0

/-- Helper: loading a stored valid record yields exactly that record. -/
theorem get_bucket_state_stored (store : Store) (key : String) (capacity : ℕ)
    (tRead : ℚ) (s : BucketState) (ttl : ℕ)
    (hst : store key = some { bytes := .valid s, ttl := ttl }) :
    get_bucket_state store key capacity tRead = .ok s := by
  simp only [get_bucket_state, hst, parseBucket]

/-- Helper: with zero elapsed time (the stored `last_refill` equals the
current clock), refill adds nothing: the refilled count is the stored count,
provided the stored count does not exceed capacity. -/
theorem newTokens_zero_elapsed (cfg : RateLimitConfig) (tier : Option String)
    (q now : ℚ) (hq : q ≤ ((resolve_tier cfg tier).limit : ℚ)) :
    newTokens cfg tier { tokens := q, last_refill := now } now = q := by
  simp only [newTokens, calculate_tokens, sub_self, lt_irrefl, if_false, ite_self,
    zero_mul, add_zero]
  exact min_eq_right hq

/-- Helper: a check on a fresh key with both clock reads equal grants a
token from the synthesized full bucket (capacity is positive by the tier
validator). -/
theorem check_fresh_allowed (cfg : RateLimitConfig) (st : Store) (identifier : String)
    (tier : Option String) (now : ℚ)
    (hst : st (get_redis_key identifier) = none) :
    check_rate_limit cfg st identifier tier now now =
      .ok ({ allowed := true,
             tokens_remaining := ⌊((resolve_tier cfg tier).limit : ℚ) - 1⌋,
             reset_at := now + ((resolve_tier cfg tier).window : ℚ),
             limit := (resolve_tier cfg tier).limit,
             retry_after := none },
           save_bucket_state st (get_redis_key identifier)
             { tokens := ((resolve_tier cfg tier).limit : ℚ) - 1, last_refill := now }
             ((resolve_tier cfg tier).window * 2)) := by
  have hload : get_bucket_state st (get_redis_key identifier)
      (resolve_tier cfg tier).limit now
      = .ok { tokens := ((resolve_tier cfg tier).limit : ℚ), last_refill := now } := by
    simp only [get_bucket_state, hst]
  have hnt : newTokens cfg tier
      { tokens := ((resolve_tier cfg tier).limit : ℚ), last_refill := now } now
      = ((resolve_tier cfg tier).limit : ℚ) :=
    newTokens_zero_elapsed cfg tier _ now le_rfl
  have h1 : (1:ℚ) ≤ ((resolve_tier cfg tier).limit : ℚ) := by
    exact_mod_cast (resolve_tier cfg tier).limit_pos
  have hc := check_allowed_spec cfg st identifier tier now now _ hload
    (by rw [hnt]; exact h1)
  rw [hnt] at hc
  exact hc

/-- Helper invariant: starting from a store whose record for the identifier
holds `q` tokens with `last_refill = now`, running `k` consecutive checks
with zero elapsed time (where `k ≤ q ≤ capacity`) succeeds and leaves
`q - k` tokens stored. -/
theorem afterChecks_stored (cfg : RateLimitConfig) (identifier : String)
    (tier : Option String) (now : ℚ) :
    ∀ (k : ℕ) (st : Store) (q : ℚ) (ttl : ℕ),
      st (get_redis_key identifier)
        = some { bytes := .valid { tokens := q, last_refill := now }, ttl := ttl } →
      (k : ℚ) ≤ q → q ≤ ((resolve_tier cfg tier).limit : ℚ) →
      ∃ (st' : Store) (ttl' : ℕ),
        afterChecks cfg identifier tier now k st = .ok st' ∧
        st' (get_redis_key identifier)
          = some { bytes := .valid { tokens := q - (k : ℚ), last_refill := now },
                   ttl := ttl' }
  | 0, st, q, ttl, hst, _, _ => ⟨st, ttl, rfl, by rw [hst]; norm_num⟩
  | k + 1, st, q, ttl, hst, hk, hq => by
    push_cast at hk
    have hk0 : (0:ℚ) ≤ (k : ℚ) := Nat.cast_nonneg k
    have h1 : (1:ℚ) ≤ q := by linarith
    have hnt : newTokens cfg tier { tokens := q, last_refill := now } now = q :=
      newTokens_zero_elapsed cfg tier q now hq
    have hload := get_bucket_state_stored st (get_redis_key identifier)
      (resolve_tier cfg tier).limit now _ _ hst
    have hcheck := check_allowed_spec cfg st identifier tier now now
      { tokens := q, last_refill := now } hload (by rw [hnt]; exact h1)
    rw [hnt] at hcheck
    have hst1 : (save_bucket_state st (get_redis_key identifier)
        { tokens := q - 1, last_refill := now }
        ((resolve_tier cfg tier).window * 2)) (get_redis_key identifier)
        = some { bytes := .valid { tokens := q - 1, last_refill := now },
                 ttl := (resolve_tier cfg tier).window * 2 } := by
      simp [save_bucket_state]
    obtain ⟨st', ttl', ha, hb⟩ := afterChecks_stored cfg identifier tier now k _
      (q - 1) ((resolve_tier cfg tier).window * 2) hst1
      (by linarith) (by linarith)
    have heqq : q - 1 - (k : ℚ) = q - ((k + 1 : ℕ) : ℚ) := by push_cast; ring
    rw [heqq] at hb
    refine ⟨st', ttl', ?_, hb⟩
    simp only [afterChecks, hcheck]
    exact ha

/-- Helper: from the empty store, `m` consecutive zero-elapsed checks
(`1 ≤ m ≤ capacity`) succeed and leave `capacity - m` tokens stored. -/
theorem afterChecks_empty (cfg : RateLimitConfig) (identifier : String)
    (tier : Option String) (now : ℚ) (m : ℕ) (hm1 : 1 ≤ m)
    (hm : m ≤ (resolve_tier cfg tier).limit) :
    ∃ (st' : Store) (ttl' : ℕ),
      afterChecks cfg identifier tier now m emptyStore = .ok st' ∧
      st' (get_redis_key identifier)
        = some { bytes := .valid { tokens := ((resolve_tier cfg tier).limit : ℚ) - (m : ℚ), last_refill := now }, ttl := ttl' } := by
  obtain ⟨n, rfl⟩ : ∃ n, m = n + 1 := ⟨m - 1, by omega⟩
  have hcheck := check_fresh_allowed cfg emptyStore identifier tier now rfl
  have hst1 : (save_bucket_state emptyStore (get_redis_key identifier)
      { tokens := ((resolve_tier cfg tier).limit : ℚ) - 1, last_refill := now }
      ((resolve_tier cfg tier).window * 2)) (get_redis_key identifier)
      = some { bytes := .valid { tokens := ((resolve_tier cfg tier).limit : ℚ) - 1, last_refill := now }, ttl := (resolve_tier cfg tier).window * 2 } := by
    simp [save_bucket_state]
  have hmq : ((n + 1 : ℕ) : ℚ) ≤ ((resolve_tier cfg tier).limit : ℚ) := by
    exact_mod_cast hm
  have hk0 : (0:ℚ) ≤ (n : ℚ) := Nat.cast_nonneg n
  obtain ⟨st', ttl', ha, hb⟩ := afterChecks_stored cfg identifier tier now n _
    (((resolve_tier cfg tier).limit : ℚ) - 1) ((resolve_tier cfg tier).window * 2) hst1
    (by push_cast at hmq; linarith) (by linarith)
  have heqq : ((resolve_tier cfg tier).limit : ℚ) - 1 - (n : ℚ)
      = ((resolve_tier cfg tier).limit : ℚ) - ((n + 1 : ℕ) : ℚ) := by push_cast; ring
  rw [heqq] at hb
  refine ⟨st', ttl', ?_, hb⟩
  simp only [afterChecks, hcheck]
  exact ha

/-- C1: starting with no stored record and zero elapsed time between calls,
every one of the first `capacity` checks (indices `0 ≤ k < capacity`) is
allowed, and the `(capacity+1)`-th check (index `capacity`) is denied with
`retry_after = window`. -/
theorem fresh_bucket_grants_exactly_capacity (cfg : RateLimitConfig)
    (identifier : String) (tier : Option String) (now : ℚ) (k : ℕ)
    (hk : k < (resolve_tier cfg tier).limit) :
    (∃ r : CheckResult,
      nthCheck cfg identifier tier now k emptyStore = .ok r ∧ r.allowed = true) ∧
    (∃ r : CheckResult,
      nthCheck cfg identifier tier now (resolve_tier cfg tier).limit emptyStore
        = .ok r ∧ r.allowed = false ∧
        r.retry_after = some (resolve_tier cfg tier).window) := by
  constructor
  · rcases Nat.eq_zero_or_pos k with hk0 | hkpos
    · subst hk0
      have hcheck := check_fresh_allowed cfg emptyStore identifier tier now rfl
      exact ⟨_, by simp only [nthCheck, afterChecks, hcheck, Except.map]; rfl, rfl⟩
    · obtain ⟨st', ttl', ha, hb⟩ :=
        afterChecks_empty cfg identifier tier now k hkpos (le_of_lt hk)
      have hq1 : (1:ℚ) ≤ ((resolve_tier cfg tier).limit : ℚ) - (k : ℚ) := by
        have hkc : (k : ℚ) + 1 ≤ ((resolve_tier cfg tier).limit : ℚ) := by
          exact_mod_cast hk
        linarith
      have hqC : ((resolve_tier cfg tier).limit : ℚ) - (k : ℚ)
          ≤ ((resolve_tier cfg tier).limit : ℚ) := by
        have := Nat.cast_nonneg (α := ℚ) k
        linarith
      have hload := get_bucket_state_stored st' (get_redis_key identifier)
        (resolve_tier cfg tier).limit now _ _ hb
      have hnt := newTokens_zero_elapsed cfg tier
        (((resolve_tier cfg tier).limit : ℚ) - (k : ℚ)) now hqC
      have hcheck := check_allowed_spec cfg st' identifier tier now now _ hload
        (by rw [hnt]; exact hq1)
      exact ⟨_, by simp only [nthCheck, ha, hcheck, Except.map]; rfl, rfl⟩
  · have hCpos : 1 ≤ (resolve_tier cfg tier).limit := (resolve_tier cfg tier).limit_pos
    obtain ⟨st', ttl', ha, hb⟩ := afterChecks_empty cfg identifier tier now
      (resolve_tier cfg tier).limit hCpos le_rfl
    have hload := get_bucket_state_stored st' (get_redis_key identifier)
      (resolve_tier cfg tier).limit now _ _ hb
    have hnt := newTokens_zero_elapsed cfg tier
      (((resolve_tier cfg tier).limit : ℚ) - ((resolve_tier cfg tier).limit : ℚ)) now
      (by simp)
    have hcheck := check_denied_spec cfg st' identifier tier now now _ hload
      (by rw [hnt]; norm_num)
    exact ⟨_, by simp only [nthCheck, ha, hcheck, Except.map]; rfl, rfl, rfl⟩

theorem fresh_bucket_grants_exactly_capacity_witness :
    2 < (resolve_tier sampleCfg none).limit ∧
    ((∃ r : CheckResult,
      nthCheck sampleCfg "u" none 0 2 emptyStore = .ok r ∧ r.allowed = true) ∧
    (∃ r : CheckResult,
      nthCheck sampleCfg "u" none 0 (resolve_tier sampleCfg none).limit emptyStore
        = .ok r ∧ r.allowed = false ∧
        r.retry_after = some (resolve_tier sampleCfg none).window)) :=
  ⟨by decide,
   fresh_bucket_grants_exactly_capacity sampleCfg "u" none 0 2 (by decide)⟩
